import Mathlib

/-!
Verification development for the scb-scraper repository.

The Python sources are shallowly embedded here:
- the Transformer (data_to_df / try_df_to_dt / fix_col_name from
  src/table-updater/scb-table-updater.py),
- the ChunkedDownloader chunking logic (extract_cardinal_key / chunk_card_list),
- the IncrementalSync merge step inside table_etl,
- the UpdateScheduler selection query (get_update_list) and the
  api-leaf-updater insertion of new references,
- the pub/sub message encoding (base64 over UTF-8),
- the CatalogCrawler recursion (find_nodes).

Python exceptions are modelled with Option/Except (none / .error meaning the
Python code raised), machine integers with Nat/Int, timestamps with Int
(seconds since the Unix epoch), and pandas frames with association lists of
columns.
-/

namespace Scb

/-- Cell values appearing in the scraped frames: SQL NULL / NaN / None are
merged into one null value, strings, integers (pandas to_numeric results;
the embedding restricts numerics to integers, which is the only numeric
shape any claim exercises), and datetimes as (year, month, day). -/
inductive Val where
  | null
  | str (s : String)
  | num (n : Int)
  | date (y m d : Nat)
deriving DecidableEq

/-- Digit-string parser used to model Python int() on the clean inputs the
pipeline feeds it (no sign, no whitespace, no underscores). Returns none when
Python int() would raise ValueError on such inputs. -/
def parseDigits (cs : List Char) : Option Nat :=
  if cs ≠ [] ∧ cs.all Char.isDigit then
    some (cs.foldl (fun a c => a * 10 + (c.toNat - 48)) 0)
  else none

/-- Model of Python int() on a full string, allowing one leading minus sign. -/
def parseIntLike (s : String) : Option Int :=
  match s.data with
  | '-' :: rest => (parseDigits rest).map (fun n => -(n : Int))
  | cs => (parseDigits cs).map (fun n => (n : Int))

/-- Model of str.split(sep) for a one-character separator, as used by the
månad branch of try_df_to_dt (c.str.split(pat=..) with pat = M). -/
def splitOnChar (sep : Char) : List Char → List (List Char)
  | [] => [[]]
  | c :: cs =>
    let r := splitOnChar sep cs
    if c = sep then [] :: r
    else
      match r with
      | [] => [[c]]
      | h :: t => (c :: h) :: t

/-- Gregorian leap-year test, as in Python calendar.isleap. -/
def isLeap (y : Nat) : Bool :=
  (y % 4 = 0 && y % 100 ≠ 0) || y % 400 = 0

/-- Number of days in a month, as returned by calendar.monthrange(y, m).1. -/
def daysInMonth (y m : Nat) : Nat :=
  if m = 2 then (if isLeap y then 29 else 28)
  else if m = 4 ∨ m = 6 ∨ m = 9 ∨ m = 11 then 30
  else 31

/-- Model of one cell of the månad branch of try_df_to_dt: split on the
character M, convert the first two pieces with int(), and build
datetime(y, m, monthrange(y, m).1). Returns none exactly when the Python
code raises: a missing second piece (IndexError), a non-integer piece
(ValueError), a month outside 1..12 (IllegalMonthError) or a year outside
datetime range, and any non-string cell (the .str accessor fails). -/
def parseMonthVal : Val → Option Val
  | .str s =>
    match splitOnChar 'M' s.data with
    | p0 :: p1 :: _ =>
      match parseDigits p0, parseDigits p1 with
      | some y, some m =>
        if 1 ≤ y ∧ y ≤ 9999 ∧ 1 ≤ m ∧ m ≤ 12 then
          some (.date y m (daysInMonth y m))
        else none
      | _, _ => none
    | _ => none
  | _ => none

/-- Model of one cell of the år branch of try_df_to_dt. The Python code is
datetime(int(y), 12, calendar.monthrange(y, 12).1) where monthrange receives
the ORIGINAL cell y, not int(y): a string cell therefore always raises
TypeError inside monthrange (string modulo in isleap), so only numeric cells
(produced by the earlier to_numeric pass) succeed. December has 31 days. -/
def parseYearVal : Val → Option Val
  | .num n => if 1 ≤ n ∧ n ≤ 9999 then some (.date n.toNat 12 31) else none
  | _ => none

/-- Model of one cell under pd.to_datetime in the catch-all branch. The
embedding recognises ISO dashed dates and lets null through (pandas maps
None to NaT); everything else fails. This under-approximates the pandas
parser, but no claim depends on which extra formats pandas accepts: the
branch keeps the whole column unchanged whenever any cell fails. -/
def parseGenericVal : Val → Option Val
  | .null => some .null
  | .str s =>
    match splitOnChar '-' s.data with
    | [ys, ms, ds] =>
      match parseDigits ys, parseDigits ms, parseDigits ds with
      | some y, some m, some d =>
        if 1 ≤ y ∧ y ≤ 9999 ∧ 1 ≤ m ∧ m ≤ 12 ∧ 1 ≤ d ∧ d ≤ daysInMonth y m then
          some (.date y m d)
        else none
      | _, _, _ => none
    | _ => none
  | _ => none

/-- Option-valued map over a list, failing when any element fails: the
shape of every pandas column operation that can raise cell by cell. -/
def mapOpt (f : α → Option β) : List α → Option (List β)
  | [] => some []
  | a :: l =>
    match f a with
    | none => none
    | some b => (mapOpt f l).map (fun bs => b :: bs)

/-- Substring test on character lists, modelling the Python expression
pat in text used by the år branch of try_df_to_dt. -/
def hasSubstr (pat : List Char) : List Char → Bool
  | [] => pat.isEmpty
  | c :: rest => pat.isPrefixOf (c :: rest) || hasSubstr pat rest

/-- Model of try_df_to_dt from scb-table-updater.py (lines 135-162), applied
to one column: name is the (already normalised) column name, dts the list of
time-tagged column texts, col the cell list. The result is none exactly when
the Python function raises an uncaught exception; only the catch-all branch
wraps its work in try/except. -/
def try_df_to_dt (name : String) (dts : List String) (col : List Val) :
    Option (List Val) :=
  if name ∉ dts then some col
  else if name = "månad" then mapOpt parseMonthVal col
  else if hasSubstr "år".data name.data then mapOpt parseYearVal col
  else some ((mapOpt parseGenericVal col).getD col)

/-- Model of fix_col_name from scb-table-updater.py: replace space, slash,
dot and comma by underscore, and lowercase. The Python chain applies the
replacements and str.lower in sequence; since the replaced characters are
caseless the chain is equivalent to this single character map. Lowercasing
here is ASCII-only (Lean Char.toLower), which agrees with Python on every
column name the source emits. -/
def fix_col_name (s : String) : String :=
  String.mk (s.data.map (fun c =>
    if c = ' ' ∨ c = '/' ∨ c = '.' ∨ c = ',' then '_' else c.toLower))

/-- One column descriptor of a raw payload: text and SCB type tag
(c = value column, t = time column, d = dimension). -/
structure PCol where
  text : String
  type : String
deriving DecidableEq

/-- One raw query response: column metadata plus rows of (key, values). -/
structure Payload where
  columns : List PCol
  data : List (List Val × List Val)
deriving DecidableEq

/-- Result of data_to_df: either the Python None sentinel (empty input) or a
frame given as named columns together with the inferred key column list. -/
inductive DfRes where
  | sentinelNone
  | frame (cols : List (String × List Val)) (keys : List String)
deriving DecidableEq

/-- Column i of the row-major data, padding short rows with null the way a
pandas frame fills missing cells with NaN. -/
def colValsAt (rows : List (List Val)) (i : Nat) : List Val :=
  rows.map (fun r => r.getD i Val.null)

/-- Column-wise model of pd.to_numeric(c, errors=ignore): the column is
converted only when every cell parses (null passes as NaN); any failure
returns the column unchanged. -/
def tryNumericCol (vs : List Val) : List Val :=
  match mapOpt (fun v =>
      match v with
      | .null => some Val.null
      | .num n => some (Val.num n)
      | .str s => (parseIntLike s).map Val.num
      | .date _ _ _ => none) vs with
  | some ws => ws
  | none => vs

/-- Model of data_to_df from scb-table-updater.py (lines 169-204). An empty
payload list returns the None sentinel (the guard at line 175). Otherwise
the columns of the first payload fix the schema: keys are the non-c columns
(names normalised), dts the time-tagged column texts (NOT normalised, which
is faithful to the source: try_df_to_dt later compares normalised names
against these raw texts). Rows concatenate key and values tuples across all
payloads. Cells equal to the literal ".." become null, every column except
region is opportunistically converted to numeric, and time columns go
through try_df_to_dt. The overall result is none when try_df_to_dt raises. -/
def data_to_df (data : List Payload) : Option DfRes :=
  match data with
  | [] => some .sentinelNone
  | p0 :: _ =>
    let cols := p0.columns.map (fun c => c.text)
    let keys := (p0.columns.filter (fun c => c.type ≠ "c")).map
      (fun c => fix_col_name c.text)
    let dts := (p0.columns.filter (fun c => c.type = "t")).map (fun c => c.text)
    let rows := (data.map (fun p => p.data)).flatten.map (fun d => d.1 ++ d.2)
    let named := (List.range cols.length).map
      (fun i => (fix_col_name (cols.getD i ""), colValsAt rows i))
    let step1 := named.map (fun nv =>
      (nv.1, nv.2.map (fun v => if v = .str ".." then Val.null else v)))
    let step2 := step1.map (fun nv =>
      (nv.1, if nv.1 ≠ "region" then tryNumericCol nv.2 else nv.2))
    match mapOpt (fun nv =>
        (try_df_to_dt nv.1 dts nv.2).map (fun ws => (nv.1, ws))) step2 with
    | none => none
    | some step3 => some (.frame step3 keys)

/-- Concrete payload with a time-tagged month column, for the date
normalisation claims. -/
def monthPayload : Payload :=
  { columns := [⟨"månad", "t"⟩, ⟨"Y", "c"⟩],
    data := [([Val.str "2023M02"], [Val.str ".."])] }

/-- Concrete payload with a year-only time column. -/
def yearPayload : Payload :=
  { columns := [⟨"år", "t"⟩, ⟨"X", "c"⟩],
    data := [([Val.str "2020"], [Val.str "5"])] }

/-! ## IncrementalSync (table_etl, scb-table-updater.py lines 249-319) -/

/-- One destination-table row as an association of column name to value. -/
abbrev Row := List (String × Val)

/-- Key tuple of a row: the values of the key columns in order, as used by
the pandas merge on the key column list. -/
def keyOf (keys : List String) (r : Row) : List (Option Val) :=
  keys.map (fun k => r.lookup k)

/-- Whether the key tuple of r already occurs in cur: the merge indicator
equals both. The destination table carries a primary key over the key
columns, so matching any row of cur is the merge semantics. -/
def keyMem (keys : List String) (cur : List Row) (r : Row) : Bool :=
  cur.any (fun c => decide (keyOf keys c = keyOf keys r))

/-- Model of df.drop_duplicates(subset=keys): keep the first row of each key
tuple, in order. -/
def dropDupKeys (keys : List String) : List Row → List Row
  | [] => []
  | r :: rs =>
    r :: dropDupKeys keys (rs.filter (fun s => decide (keyOf keys s ≠ keyOf keys r)))
termination_by l => l.length
decreasing_by
  simp only [List.length_cons]
  exact Nat.lt_succ_of_le (List.length_filter_le _ _)

/-- The rows appended by one sync step (scb-table-updater.py lines 301-305):
left-anti-join of the transformed rows against the current contents on the
key columns, then drop duplicate keys within the survivors. -/
def newRowsFor (keys : List String) (rows cur : List Row) : List Row :=
  dropDupKeys keys (rows.filter (fun r => !(keyMem keys cur r)))

/-- One scb_ref row (see try_create_table in scb-api-leaf-updater.py). -/
structure Ref where
  full_nav_path : String
  description : String
  last_update : Option Int
  next_update : Option Int
deriving DecidableEq

/-- The persistent store: the scb_ref reference table plus one destination
table per leaf, keyed by table name. -/
structure DB where
  refs : List Ref
  tables : List (String × List Row)
deriving DecidableEq

/-- Destination table name from a nav path: dots become underscores. -/
def tableNameOf (node : String) : String :=
  String.mk (node.data.map (fun c => if c = '.' then '_' else c))

/-- Row-major view of a column frame, padding ragged columns with null. -/
def toRows (cols : List (String × List Val)) : List Row :=
  (List.range ((cols.head?.map (fun c => c.2.length)).getD 0)).map
    (fun i => cols.map (fun c => (c.1, c.2.getD i Val.null)))

/-- Set the contents of a destination table, creating it if absent
(create_table with IF NOT EXISTS followed by the append). -/
def dbSetTable (db : DB) (name : String) (rows : List Row) : DB :=
  if (db.tables.lookup name).isSome then
    { db with tables := db.tables.map (fun kv => if kv.1 = name then (name, rows) else kv) }
  else
    { db with tables := db.tables ++ [(name, rows)] }

/-- The staleness interval written on success: interval 30 day, in seconds. -/
def refreshInterval : Int := 30 * 86400

/-- Retry loop of table_etl: up to 3 attempts of get_table; the download
oracle gives the outcome of attempt i (none = the attempt raised). -/
def retry3 (attempts : Nat → Option α) : Option α :=
  ((attempts 0).orElse (fun _ => attempts 1)).orElse (fun _ => attempts 2)

/-- Model of table_etl (scb-table-updater.py lines 249-319). The download is
abstracted by the attempts oracle; now is localtimestamp. Result none means
the Python function raised (uncaught transform exception); some (db2, ret)
gives the store after the call and the returned value (none = Python None,
the soft-failure sentinel). On download exhaustion the function returns
before touching the store; on success it appends the deduplicated new rows
and advances last_update / next_update of the matching reference. -/
def table_etl (attempts : Nat → Option (List Payload)) (now : Int) (node : String)
    (db : DB) : Option (DB × Option String) :=
  match retry3 attempts with
  | none => some (db, none)
  | some data =>
    match data_to_df data with
    | none => none
    | some .sentinelNone => some (db, none)
    | some (.frame cols keys) =>
      let table_name := tableNameOf node
      let cur := (db.tables.lookup table_name).getD []
      let df := toRows cols
      let appended := newRowsFor keys df cur
      let db1 := dbSetTable db table_name (cur ++ appended)
      let db2 := { db1 with refs := db1.refs.map (fun r =>
        if r.full_nav_path = node then
          { r with last_update := some now, next_update := some (now + refreshInterval) }
        else r) }
      some (db2, some "Success")

/-- Model of the worker callback in sub (scb-table-updater.py lines 329-338):
run table_etl on the decoded node and acknowledge unconditionally. Result
none means the callback itself raised before reaching message.ack. -/
def callback (attempts : Nat → Option (List Payload)) (now : Int) (node : String)
    (db : DB) : Option (DB × Bool) :=
  match table_etl attempts now node db with
  | none => none
  | some (db2, _) => some (db2, true)

/-! ## UpdateScheduler (get_update_list, scb-update-scheduler.py lines 28-50) -/

/-- The WHERE clause of get_update_list under SQL three-valued logic: a
comparison against a NULL timestamp is unknown, so the row is not selected
unless both timestamps are present and next_update < now and
next_update > last_update. -/
def selPred (now : Int) (r : Ref) : Bool :=
  match r.next_update, r.last_update with
  | some nu, some lu => decide (nu < now) && decide (lu < nu)
  | _, _ => false

/-- References returned by the SELECT ... LIMIT 100. The embedding fixes one
row order; LIMIT without ORDER BY may pick any 100 matching rows, and the
claims quantify only over what every choice satisfies. -/
def selectRefs (now : Int) (refs : List Ref) : List Ref :=
  (refs.filter (selPred now)).take 100

/-- Model of get_update_list: the full_nav_path of each selected row. -/
def get_update_list (now : Int) (refs : List Ref) : List String :=
  (selectRefs now refs).map (fun r => r.full_nav_path)

/-! ## Leaf discovery insertion (scb-api-leaf-updater.py lines 124-133) -/

/-- Unix seconds of 1900-01-01T00:00:00, the last_update sentinel written by
the api-leaf-updater (datetime(1900, 1, 1)). -/
def sentinel1900 : Int := -2208988800

/-- Model of filter_new_nodes: keep the crawled (path, description) pairs
whose path is not yet registered. -/
def filter_new_nodes (existing : List String) (nodes : List (String × String)) :
    List (String × String) :=
  nodes.filter (fun n => !(existing.contains n.1))

/-- The scb_ref rows inserted for newly discovered leaves: last_update is the
1900 sentinel and next_update the discovery time (datetime.utcnow()). -/
def newNodeRows (disc : Int) (existing : List String) (nodes : List (String × String)) :
    List Ref :=
  (filter_new_nodes existing nodes).map (fun n => ⟨n.1, n.2, some sentinel1900, some disc⟩)

/-! ## ChunkedDownloader chunking (scb-table-updater.py lines 43-88) -/

/-- Number of datapoints per value of the chunk dimension: the product of
the remaining dimension cardinalities (chunk_card_list lines 70-73). -/
def datapointsOf (query : List (String × List α)) : Nat :=
  query.foldl (fun acc kv => acc * kv.2.length) 1

/-- Section sizes of numpy array_split(l, k): L mod k sections of size
L / k + 1 followed by k - L mod k sections of size L / k. -/
def splitCounts (L k : Nat) : List Nat :=
  List.replicate (L % k) (L / k + 1) ++ List.replicate (k - L % k) (L / k)

/-- Cut a list into consecutive pieces of the given sizes. -/
def takeDropSplit : List α → List Nat → List (List α)
  | _, [] => []
  | l, s :: ss => l.take s :: takeDropSplit (l.drop s) ss

/-- Model of numpy array_split(l, k); k = 0 raises ValueError (none). -/
def npArraySplit (l : List α) (k : Nat) : Option (List (List α)) :=
  if k = 0 then none else some (takeDropSplit l (splitCounts l.length k))

/-- Model of chunk_card_list from scb-table-updater.py (lines 63-88):
datapoints is the product of the remaining cardinalities, n the clamped
per-chunk budget 70000 / datapoints, and the chunk dimension values are
split with np.array_split into len(card_list) / n sections. none models the
two raising paths: datapoints = 0 (ZeroDivisionError in 70000 / datapoints)
and len(card_list) / n = 0 (array_split rejects zero sections). -/
def chunk_card_list (query : List (String × List α)) (card_list : List α) :
    Option (List (List α)) :=
  let d := datapointsOf query
  if d = 0 then none
  else
    let n0 := 70000 / d
    let n := if n0 = 0 then 1 else n0
    npArraySplit card_list (card_list.length / n)

/-- Model of extract_cardinal_key (lines 43-60): pick the first dimension of
strictly greatest cardinality (the fold mirrors the Python loop with its
initial empty key), return it and delete it from the query. none models the
KeyError when the computed key is absent (all dimensions empty). -/
def extract_cardinal_key (query : List (String × List α)) :
    Option ((String × List α) × List (String × List α)) :=
  let key := (query.foldl
    (fun acc kv => if kv.2.length > acc.2 then (kv.1, kv.2.length) else acc) ("", 0)).1
  match query.find? (fun kv => kv.1 == key) with
  | none => none
  | some kv => some (kv, query.eraseP (fun kv2 => kv2.1 == key))

/-- The chunks produced for one table: extract the chunk dimension from the
query, then chunk its value list against the remaining dimensions
(get_table, lines 108-114). -/
def get_table_chunks (vars : List (String × List α)) : Option (List (List α)) :=
  match extract_cardinal_key vars with
  | none => none
  | some (kc, rest) => chunk_card_list rest kc.2

/-- Concrete table dimensions for the chunk-budget counterexample: three
fixed dimensions of sizes 10, 40 and 49 (product 19600) and a chunk
dimension of 142 values. -/
def cexVars : List (String × List Nat) :=
  [("a", List.range 10), ("b", List.range 40), ("c", List.range 49),
   ("d", List.range 142)]

/-- The residual query of cexVars after the chunk dimension is removed. -/
def cexRest : List (String × List Nat) :=
  [("a", List.range 10), ("b", List.range 40), ("c", List.range 49)]

/-! ## Queue message encoding (pub lines 53-70, sub lines 322-338) -/

/-- UTF-8 encoding of one code point (str.encode), as byte values. -/
def utf8EncodeCp (n : Nat) : List Nat :=
  if n < 128 then [n]
  else if n < 2048 then [192 + n / 64, 128 + n % 64]
  else if n < 65536 then [224 + n / 4096, 128 + (n / 64) % 64, 128 + n % 64]
  else [240 + n / 262144, 128 + (n / 4096) % 64, 128 + (n / 64) % 64, 128 + n % 64]

/-- UTF-8 encoding of a code-point sequence (a Python str). -/
def utf8Encode (s : List Nat) : List Nat := (s.map utf8EncodeCp).flatten

mutual

/-- UTF-8 decoding (bytes.decode) back to code points; none models
UnicodeDecodeError on truncated sequences or stray continuation bytes. The
lead byte picks the sequence length; the helpers below consume the
continuation bytes of 2-, 3- and 4-byte sequences. -/
def utf8Decode : List Nat → Option (List Nat)
  | [] => some []
  | b :: rest =>
    if b < 128 then (utf8Decode rest).map (fun l => b :: l)
    else if b < 192 then none
    else if b < 224 then utf8Dec2 b rest
    else if b < 240 then utf8Dec3 b rest
    else utf8Dec4 b rest

/-- Continuation of a 2-byte UTF-8 sequence with lead byte b. -/
def utf8Dec2 (b : Nat) : List Nat → Option (List Nat)
  | b1 :: r => (utf8Decode r).map (fun l => ((b - 192) * 64 + (b1 - 128)) :: l)
  | _ => none

/-- Continuation of a 3-byte UTF-8 sequence with lead byte b. -/
def utf8Dec3 (b : Nat) : List Nat → Option (List Nat)
  | b1 :: b2 :: r =>
    (utf8Decode r).map (fun l => ((b - 224) * 4096 + (b1 - 128) * 64 + (b2 - 128)) :: l)
  | _ => none

/-- Continuation of a 4-byte UTF-8 sequence with lead byte b. -/
def utf8Dec4 (b : Nat) : List Nat → Option (List Nat)
  | b1 :: b2 :: b3 :: r =>
    (utf8Decode r).map (fun l =>
      ((b - 240) * 262144 + (b1 - 128) * 4096 + (b2 - 128) * 64 + (b3 - 128)) :: l)
  | _ => none

end

/-- Byte value of the base64 digit with index n (RFC 4648 alphabet). -/
def b64Char (n : Nat) : Nat :=
  if n < 26 then 65 + n
  else if n < 52 then 97 + (n - 26)
  else if n < 62 then 48 + (n - 52)
  else if n = 62 then 43
  else 47

/-- Index of a base64 digit byte, none for bytes outside the alphabet. -/
def b64Val (c : Nat) : Option Nat :=
  if 65 ≤ c ∧ c ≤ 90 then some (c - 65)
  else if 97 ≤ c ∧ c ≤ 122 then some (c - 97 + 26)
  else if 48 ≤ c ∧ c ≤ 57 then some (c - 48 + 52)
  else if c = 43 then some 62
  else if c = 47 then some 63
  else none

/-- Model of base64.b64encode on a byte list; 61 is the pad byte. -/
def b64Encode : List Nat → List Nat
  | [] => []
  | [b0] => [b64Char (b0 / 4), b64Char (b0 % 4 * 16), 61, 61]
  | [b0, b1] =>
    [b64Char (b0 / 4), b64Char (b0 % 4 * 16 + b1 / 16), b64Char (b1 % 16 * 4), 61]
  | b0 :: b1 :: b2 :: rest =>
    b64Char (b0 / 4) :: b64Char (b0 % 4 * 16 + b1 / 16) ::
      b64Char (b1 % 16 * 4 + b2 / 64) :: b64Char (b2 % 64) :: b64Encode rest

/-- Model of base64.b64decode on well-formed input (quadruples of digits
with trailing padding); none on malformed input. On every output of
b64Encode this agrees with the Python decoder. -/
def b64Decode : List Nat → Option (List Nat)
  | [] => some []
  | c0 :: c1 :: c2 :: c3 :: rest =>
    match b64Val c0, b64Val c1 with
    | some v0, some v1 =>
      if c2 = 61 then
        if c3 = 61 ∧ rest = [] then some [v0 * 4 + v1 / 16] else none
      else
        match b64Val c2 with
        | some v2 =>
          if c3 = 61 then
            if rest = [] then some [v0 * 4 + v1 / 16, v1 % 16 * 16 + v2 / 4] else none
          else
            match b64Val c3 with
            | some v3 =>
              (b64Decode rest).map (fun tl =>
                (v0 * 4 + v1 / 16) :: (v1 % 16 * 16 + v2 / 4) :: (v2 % 4 * 64 + v3) :: tl)
            | none => none
        | none => none
    | _, _ => none
  | _ => none

/-- The bytes the scheduler publishes for a message: pub does
base64.b64encode(message.encode()). The message is a Python str, given by
its code points. -/
def pubMessageData (msg : List Nat) : List Nat := b64Encode (utf8Encode msg)

/-- The path the worker recovers: sub does
base64.b64decode(message.data).decode(). -/
def subDecodePath (data : List Nat) : Option (List Nat) :=
  (b64Decode data).bind utf8Decode

/-! ## CatalogCrawler (find_nodes, scb-api-leaf-updater.py lines 28-64) -/

/-- Catalog tree for the crawl model: t nodes are tables (leaves), l nodes
are branches. fails counts how many consecutive scb.info() calls on the
branch return an error payload: 0 = first call succeeds, 1 = first call
errors and the single retry succeeds, 2 or more = the retry also errors. -/
inductive CNode where
  | t (id text : String)
  | l (id : String) (fails : Nat) (children : List CNode)

/-- Concrete reference row used to witness the scheduler-selection theorem:
last_update 0, next_update 5, checked at now = 10. -/
def wRef : Ref := ⟨"p", "d", some 0, some 5⟩

/-- Concrete dimension set used to witness the chunk-partition theorem: the
fixed dimensions have cardinality product 70000, so n = 1 and each of the
three chunk values becomes its own chunk. -/
def wQuery : List (String × List Nat) :=
  [("a", List.range 10), ("b", List.range 10), ("c", List.range 10),
   ("d", List.range 10), ("e", List.range 7)]

mutual

/-- Model of find_nodes on one branch node, given the full nav path OF that
node. When both info() calls error, the error payload is a dict and the
subsequent iteration raises TypeError (modelled .error), which propagates
through every enclosing stack frame — nothing catches it. Otherwise the
table children are emitted first (parent path + "." + id), then each branch
child is crawled in order, any error propagating. -/
def find_nodes (path : String) : CNode → Except Unit (List (String × String))
  | .t _ _ => .ok []
  | .l _ fails children =>
    if 2 ≤ fails then .error ()
    else
      match crawlChildren path children with
      | .error e => .error e
      | .ok subs =>
        .ok ((children.filterMap (fun c =>
          match c with
          | .t cid ctext => some (path ++ "." ++ cid, ctext)
          | .l _ _ _ => none)) ++ subs)

/-- Crawl the branch children of a node in order, concatenating results and
propagating the first error. -/
def crawlChildren (path : String) : List CNode → Except Unit (List (String × String))
  | [] => .ok []
  | .t _ _ :: cs => crawlChildren path cs
  | .l cid f ccs :: cs =>
    match find_nodes (path ++ "." ++ cid) (.l cid f ccs) with
    | .error e => .error e
    | .ok rs =>
      match crawlChildren path cs with
      | .error e => .error e
      | .ok rest => .ok (rs ++ rest)

end

/-! ## Helper lemmas -/

theorem mapOpt_eq_none_of_mem {α β : Type} {f : α → Option β} {l : List α} {a : α}
    (ha : a ∈ l) (hfa : f a = none) : mapOpt f l = none := by
  induction l with
  | nil => cases ha
  | cons x xs ih =>
    rcases List.mem_cons.1 ha with h | h
    · subst h
      simp [mapOpt, hfa]
    · cases hx : f x <;> simp [mapOpt, hx, ih h]

theorem dropDupKeys_key_complete (keys : List String) :
    ∀ (n : Nat) (l : List Row), l.length ≤ n → ∀ r ∈ l,
      ∃ c ∈ dropDupKeys keys l, keyOf keys c = keyOf keys r := by
  intro n
  induction n with
  | zero =>
    intro l hl r hr
    have : l = [] := List.eq_nil_of_length_eq_zero (Nat.le_zero.1 hl)
    subst this
    cases hr
  | succ n ih =>
    intro l hl r hr
    match l with
    | [] => cases hr
    | x :: xs =>
      by_cases hk : keyOf keys r = keyOf keys x
      · refine ⟨x, ?_, hk.symm⟩
        simp only [dropDupKeys]
        exact List.mem_cons_self _ _
      · have hrx : r ∈ xs := by
          rcases List.mem_cons.1 hr with h | h
          · exact absurd (congrArg (keyOf keys) h) hk
          · exact h
        have hrf : r ∈ xs.filter (fun s => decide (keyOf keys s ≠ keyOf keys x)) := by
          rw [List.mem_filter]
          exact ⟨hrx, by simp [hk]⟩
        have hlen : (xs.filter (fun s => decide (keyOf keys s ≠ keyOf keys x))).length ≤ n := by
          have := List.length_filter_le (fun s => decide (keyOf keys s ≠ keyOf keys x)) xs
          simp only [List.length_cons] at hl
          omega
        obtain ⟨c, hc, hck⟩ := ih _ hlen r hrf
        refine ⟨c, ?_, hck⟩
        simp only [dropDupKeys]
        exact List.mem_cons_of_mem _ hc

theorem splitCounts_sum (L k : Nat) (hk : k ≠ 0) : (splitCounts L k).sum = L := by
  unfold splitCounts
  rw [List.sum_append, List.sum_replicate, List.sum_replicate, smul_eq_mul, smul_eq_mul]
  have h1 : L % k < k := Nat.mod_lt _ (Nat.pos_of_ne_zero hk)
  have h2 : k * (L / k) + L % k = L := Nat.div_add_mod L k
  rw [Nat.mul_add, Nat.mul_one, Nat.sub_mul]
  have h3 : L % k * (L / k) ≤ k * (L / k) := Nat.mul_le_mul_right _ (le_of_lt h1)
  omega

theorem takeDropSplit_flatten {α : Type} (ss : List Nat) :
    ∀ (l : List α), ss.sum = l.length → (takeDropSplit l ss).flatten = l := by
  induction ss with
  | nil =>
    intro l h
    simp only [List.sum_nil] at h
    have : l = [] := List.eq_nil_of_length_eq_zero h.symm
    subst this
    rfl
  | cons s ss ih =>
    intro l h
    simp only [List.sum_cons] at h
    have hs : s ≤ l.length := by omega
    have hrest : ss.sum = (l.drop s).length := by
      rw [List.length_drop]
      omega
    simp only [takeDropSplit, List.flatten_cons]
    rw [ih (l.drop s) hrest, List.take_append_drop]

theorem pairwise_disjoint_of_flatten_nodup {α : Type} {l : List (List α)}
    (h : l.flatten.Nodup) : l.Pairwise (fun a b => ∀ x ∈ a, x ∉ b) := by
  induction l with
  | nil => exact List.Pairwise.nil
  | cons c cs ih =>
    rw [List.flatten_cons] at h
    refine List.Pairwise.cons ?_ (ih (List.Nodup.of_append_right h))
    intro b hb x hx hxb
    exact List.disjoint_of_nodup_append h hx (List.mem_flatten.2 ⟨b, hb, hxb⟩)

theorem b64Val_b64Char : ∀ n, n < 64 → b64Val (b64Char n) = some n := by decide

theorem b64Char_ne_pad : ∀ n, n < 64 → b64Char n ≠ 61 := by decide

theorem b64_roundtrip : ∀ (l : List Nat), (∀ b ∈ l, b < 256) →
    b64Decode (b64Encode l) = some l
  | [] => fun _ => rfl
  | [b0] => fun h => by
    have hb0 : b0 < 256 := h b0 (by simp)
    have h1 : b0 / 4 < 64 := by omega
    have h2 : b0 % 4 * 16 < 64 := by omega
    rw [show b64Encode [b0] = [b64Char (b0 / 4), b64Char (b0 % 4 * 16), 61, 61] from rfl]
    unfold b64Decode
    rw [b64Val_b64Char _ h1, b64Val_b64Char _ h2]
    simp
    omega
  | [b0, b1] => fun h => by
    have hb0 : b0 < 256 := h b0 (by simp)
    have hb1 : b1 < 256 := h b1 (by simp)
    have h1 : b0 / 4 < 64 := by omega
    have h2 : b0 % 4 * 16 + b1 / 16 < 64 := by omega
    have h3 : b1 % 16 * 4 < 64 := by omega
    rw [show b64Encode [b0, b1] =
      [b64Char (b0 / 4), b64Char (b0 % 4 * 16 + b1 / 16), b64Char (b1 % 16 * 4), 61]
      from rfl]
    unfold b64Decode
    rw [b64Val_b64Char _ h1, b64Val_b64Char _ h2, b64Val_b64Char _ h3]
    dsimp only []
    rw [if_neg (b64Char_ne_pad _ h3)]
    simp
    constructor
    · omega
    · omega
  | b0 :: b1 :: b2 :: rest => fun h => by
    have hb0 : b0 < 256 := h b0 (by simp)
    have hb1 : b1 < 256 := h b1 (by simp)
    have hb2 : b2 < 256 := h b2 (by simp)
    have hrest : ∀ b ∈ rest, b < 256 := fun b hb => h b (by simp [hb])
    have h1 : b0 / 4 < 64 := by omega
    have h2 : b0 % 4 * 16 + b1 / 16 < 64 := by omega
    have h3 : b1 % 16 * 4 + b2 / 64 < 64 := by omega
    have h4 : b2 % 64 < 64 := by omega
    have ih := b64_roundtrip rest hrest
    rw [show b64Encode (b0 :: b1 :: b2 :: rest) =
      b64Char (b0 / 4) :: b64Char (b0 % 4 * 16 + b1 / 16) ::
        b64Char (b1 % 16 * 4 + b2 / 64) :: b64Char (b2 % 64) :: b64Encode rest from rfl]
    unfold b64Decode
    rw [b64Val_b64Char _ h1, b64Val_b64Char _ h2, b64Val_b64Char _ h3, b64Val_b64Char _ h4]
    dsimp only []
    rw [if_neg (b64Char_ne_pad _ h3), if_neg (b64Char_ne_pad _ h4), ih]
    simp
    refine ⟨by omega, by omega, by omega⟩

theorem utf8Decode_encCp (c : Nat) (rest : List Nat) :
    utf8Decode (utf8EncodeCp c ++ rest) = (utf8Decode rest).map (fun l => c :: l) := by
  by_cases h1 : c < 128
  · have he : utf8EncodeCp c = [c] := by rw [utf8EncodeCp, if_pos h1]
    rw [he]
    show utf8Decode (c :: rest) = _
    rw [utf8Decode]
    rw [if_pos h1]
  · by_cases h2 : c < 2048
    · have he : utf8EncodeCp c = [192 + c / 64, 128 + c % 64] := by
        rw [utf8EncodeCp, if_neg h1, if_pos h2]
      rw [he]
      show utf8Decode ((192 + c / 64) :: (128 + c % 64) :: rest) = _
      rw [utf8Decode]
      rw [if_neg (by omega), if_neg (by omega), if_pos (by omega)]
      rw [utf8Dec2]
      have : (192 + c / 64 - 192) * 64 + (128 + c % 64 - 128) = c := by omega
      rw [this]
    · by_cases h3 : c < 65536
      · have he : utf8EncodeCp c = [224 + c / 4096, 128 + c / 64 % 64, 128 + c % 64] := by
          rw [utf8EncodeCp, if_neg h1, if_neg h2, if_pos h3]
        rw [he]
        show utf8Decode
          ((224 + c / 4096) :: (128 + c / 64 % 64) :: (128 + c % 64) :: rest) = _
        rw [utf8Decode]
        rw [if_neg (by omega), if_neg (by omega), if_neg (by omega), if_pos (by omega)]
        rw [utf8Dec3]
        have : (224 + c / 4096 - 224) * 4096 + (128 + c / 64 % 64 - 128) * 64 +
            (128 + c % 64 - 128) = c := by omega
        rw [this]
      · have he : utf8EncodeCp c =
            [240 + c / 262144, 128 + c / 4096 % 64, 128 + c / 64 % 64, 128 + c % 64] := by
          rw [utf8EncodeCp, if_neg h1, if_neg h2, if_neg h3]
        rw [he]
        show utf8Decode
          ((240 + c / 262144) :: (128 + c / 4096 % 64) :: (128 + c / 64 % 64) ::
            (128 + c % 64) :: rest) = _
        rw [utf8Decode]
        rw [if_neg (by omega), if_neg (by omega), if_neg (by omega), if_neg (by omega)]
        rw [utf8Dec4]
        have : (240 + c / 262144 - 240) * 262144 + (128 + c / 4096 % 64 - 128) * 4096 +
            (128 + c / 64 % 64 - 128) * 64 + (128 + c % 64 - 128) = c := by omega
        rw [this]

theorem utf8_roundtrip : ∀ (s : List Nat), utf8Decode (utf8Encode s) = some s
  | [] => rfl
  | c :: cs => by
    show utf8Decode ((utf8EncodeCp c :: cs.map utf8EncodeCp).flatten) = _
    rw [List.flatten_cons, utf8Decode_encCp]
    rw [show (cs.map utf8EncodeCp).flatten = utf8Encode cs from rfl]
    rw [utf8_roundtrip cs]
    rfl

theorem utf8EncodeCp_lt_256 (c : Nat) (hc : c < 1114112) :
    ∀ b ∈ utf8EncodeCp c, b < 256 := by
  intro b hb
  unfold utf8EncodeCp at hb
  split_ifs at hb with h1 h2 h3 <;> simp only [List.mem_cons, List.not_mem_nil,
    or_false] at hb <;> rcases hb with hb | hb | hb | hb <;> omega

theorem utf8Encode_bytes_lt (msg : List Nat) (h : ∀ c ∈ msg, c < 1114112) :
    ∀ b ∈ utf8Encode msg, b < 256 := by
  intro b hb
  rw [utf8Encode, List.mem_flatten] at hb
  obtain ⟨l, hl, hbl⟩ := hb
  rw [List.mem_map] at hl
  obtain ⟨c, hc, rfl⟩ := hl
  exact utf8EncodeCp_lt_256 c (h c hc) b hbl

theorem crawlChildren_double_failure (path bid : String) (bcs : List CNode) (f : Nat)
    (hf : 2 ≤ f) :
    ∀ (pre post : List CNode),
      crawlChildren path (pre ++ CNode.l bid f bcs :: post) = .error () := by
  intro pre
  induction pre with
  | nil =>
    intro post
    rw [List.nil_append, crawlChildren, find_nodes, if_pos hf]
  | cons c cs ih =>
    intro post
    cases c with
    | t a b =>
      rw [List.cons_append, crawlChildren]
      exact ih post
    | l cid cf ccs =>
      rw [List.cons_append, crawlChildren]
      cases hfn : find_nodes (path ++ "." ++ cid) (CNode.l cid cf ccs) with
      | error e => cases e; rfl
      | ok rs => rw [ih post]

/-! ## Claim theorems -/

/-- C5: in a time-tagged month column the value "2023M02" is normalised to
2023-02-28 (the last calendar day of that month), and in a year-only time
column the value "2020" is normalised to 2020-12-31, both stated through the
full transform data_to_df (the year column is first coerced to numeric by
the to_numeric pass, after which the år branch succeeds). -/
theorem date_normalization_examples :
    data_to_df [monthPayload] =
      some (.frame [("månad", [Val.date 2023 2 28]), ("y", [Val.null])] ["månad"]) ∧
    data_to_df [yearPayload] =
      some (.frame [("år", [Val.date 2020 12 31]), ("x", [Val.num 5])] ["år"]) := by
  constructor <;> decide

/-- C6 counterexample: on the empty payload sequence, data_to_df returns the
Python None sentinel (the guard at line 175 of scb-table-updater.py), not an
empty row collection with a key list as the claim states. -/
theorem data_to_df_empty_counterexample :
    data_to_df [] = some DfRes.sentinelNone ∧
    data_to_df [] ≠ some (DfRes.frame [] []) := by
  constructor <;> decide

/-- C6 amended: on the empty payload sequence data_to_df returns the None
sentinel without raising, and table_etl then aborts that cycle, returning
the soft-failure value and leaving the store untouched. -/
theorem data_to_df_empty_sentinel (attempts : Nat → Option (List Payload)) (now : Int)
    (node : String) (db : DB) (h : retry3 attempts = some []) :
    data_to_df [] = some DfRes.sentinelNone ∧
    table_etl attempts now node db = some (db, none) := by
  refine ⟨rfl, ?_⟩
  simp [table_etl, h, data_to_df]

/-- Witness for the amended C6 theorem at a concrete oracle and store. -/
theorem data_to_df_empty_sentinel_witness :
    data_to_df [] = some DfRes.sentinelNone ∧
    table_etl (fun _ => some []) 0 "A.B" ⟨[], []⟩ = some (⟨[], []⟩, none) :=
  data_to_df_empty_sentinel (fun _ => some []) 0 "A.B" ⟨[], []⟩ rfl

/-- C7 counterexample: in the time-tagged column named månad, the value
"banan" cannot be parsed as a date, and try_df_to_dt raises (ValueError from
int, modelled none) instead of leaving the value unchanged: the månad branch
has no exception handler. -/
theorem month_column_raises_counterexample :
    try_df_to_dt "månad" ["månad"] [Val.str "banan"] = none := by decide

/-- C7 amended: for time-tagged columns other than månad and those whose
name contains år, try_df_to_dt never raises, and whenever some cell fails
generic date parsing the whole column is left unchanged (pd.to_datetime is
wrapped in try/except at column granularity). -/
theorem try_df_to_dt_catch_all_total (name : String) (dts : List String) (col : List Val)
    (h2 : name ≠ "månad") (h3 : hasSubstr "år".data name.data = false) :
    (try_df_to_dt name dts col).isSome = true ∧
    ((∃ v ∈ col, parseGenericVal v = none) → try_df_to_dt name dts col = some col) := by
  by_cases hdts : name ∈ dts
  · constructor
    · simp [try_df_to_dt, hdts, h2, h3]
    · rintro ⟨v, hv, hfv⟩
      simp [try_df_to_dt, hdts, h2, h3, mapOpt_eq_none_of_mem hv hfv]
  · constructor <;> simp [try_df_to_dt, hdts]

/-- Witness for the amended C7 theorem: a time column named period holding
the unparseable value "banan" passes through unchanged. -/
theorem try_df_to_dt_catch_all_total_witness :
    (try_df_to_dt "period" ["period"] [Val.str "banan"]).isSome = true ∧
    try_df_to_dt "period" ["period"] [Val.str "banan"] = some [Val.str "banan"] := by
  have h := try_df_to_dt_catch_all_total "period" ["period"] [Val.str "banan"]
    (by decide) (by decide)
  exact ⟨h.1, h.2 ⟨Val.str "banan", by decide, by decide⟩⟩

/-- C2: when all three download attempts fail, table_etl returns the
soft-failure value with the store unchanged (so the last_update and
next_update of every reference, in particular the matching one, are
untouched), and the worker callback still acknowledges the message. -/
theorem download_fail_open (attempts : Nat → Option (List Payload)) (now : Int)
    (node : String) (db : DB) (h0 : attempts 0 = none) (h1 : attempts 1 = none)
    (h2 : attempts 2 = none) :
    table_etl attempts now node db = some (db, none) ∧
    callback attempts now node db = some (db, true) := by
  have hr : retry3 attempts = none := by
    simp [retry3, h0, h1, h2, Option.orElse]
  constructor
  · simp [table_etl, hr]
  · simp [callback, table_etl, hr]

/-- Witness for the C2 theorem at a concrete always-failing oracle. -/
theorem download_fail_open_witness :
    table_etl (fun _ => none) 0 "A.B" ⟨[⟨"A.B", "x", some 1, some 2⟩], []⟩ =
      some (⟨[⟨"A.B", "x", some 1, some 2⟩], []⟩, none) ∧
    callback (fun _ => none) 0 "A.B" ⟨[⟨"A.B", "x", some 1, some 2⟩], []⟩ =
      some (⟨[⟨"A.B", "x", some 1, some 2⟩], []⟩, true) :=
  download_fail_open (fun _ => none) 0 "A.B" _ rfl rfl rfl

/-- C4: every reference the scheduler selects comes from the store and
satisfies the selection predicate (next_update non-null, next_update < now
and next_update > last_update under SQL three-valued logic), and the
selection never exceeds the LIMIT of 100 rows. -/
theorem scheduler_selection_sound (now : Int) (refs : List Ref) :
    (get_update_list now refs).length ≤ 100 ∧
    ∀ r ∈ selectRefs now refs, r ∈ refs ∧ selPred now r = true := by
  constructor
  · simp only [get_update_list, List.length_map, selectRefs]
    exact List.length_take_le _ _
  · intro r hr
    have hf : r ∈ refs.filter (selPred now) := List.take_subset _ _ hr
    have hm := List.mem_filter.1 hf
    exact ⟨hm.1, hm.2⟩

/-- Witness for the C4 theorem at a one-row store. -/
theorem scheduler_selection_sound_witness :
    (get_update_list 10 [wRef]).length ≤ 100 ∧ (wRef ∈ [wRef] ∧ selPred 10 wRef = true) :=
  ⟨(scheduler_selection_sound 10 [wRef]).1,
   (scheduler_selection_sound 10 [wRef]).2 wRef (by decide)⟩

/-- C9: every newly discovered leaf is inserted with last_update equal to
the 1900 sentinel and next_update equal to the discovery time, so
next_update > last_update holds on insertion and the row satisfies the
scheduler predicate selPred as soon as now passes the discovery time (the
discovery time is nonnegative: the crawler runs after 1970). -/
theorem new_leaf_selectable (disc now : Int) (existing : List String)
    (nodes : List (String × String)) (r : Ref) (hr : r ∈ newNodeRows disc existing nodes)
    (hd : 0 ≤ disc) (hn : disc < now) :
    r.last_update = some sentinel1900 ∧ r.next_update = some disc ∧
    selPred now r = true := by
  rcases List.mem_map.1 hr with ⟨n, _, rfl⟩
  refine ⟨rfl, rfl, ?_⟩
  simp only [selPred, Bool.and_eq_true, decide_eq_true_iff]
  refine ⟨hn, ?_⟩
  simp only [sentinel1900]
  omega

/-- C3: syncing twice with identical source rows appends nothing the second
time. After one sync step the destination holds cur plus the deduplicated
new rows; since every source row key now occurs there, the left-anti-join of
the second step filters out every row and nothing survives to append. -/
theorem sync_idempotent (keys : List String) (rows cur : List Row) :
    newRowsFor keys rows (cur ++ newRowsFor keys rows cur) = [] := by
  have hall : ∀ r ∈ rows, keyMem keys (cur ++ newRowsFor keys rows cur) r = true := by
    intro r hr
    by_cases hk : keyMem keys cur r = true
    · unfold keyMem at *
      rw [List.any_append, hk, Bool.true_or]
    · have hrf : r ∈ rows.filter (fun s => !(keyMem keys cur s)) := by
        rw [List.mem_filter]
        refine ⟨hr, ?_⟩
        simp only [Bool.not_eq_true] at hk
        rw [hk]
        rfl
      obtain ⟨c, hc, hck⟩ :=
        dropDupKeys_key_complete keys (rows.filter (fun s => !(keyMem keys cur s))).length
          (rows.filter (fun s => !(keyMem keys cur s))) le_rfl r hrf
      unfold keyMem
      rw [List.any_append]
      have hN : (newRowsFor keys rows cur).any
          (fun c2 => decide (keyOf keys c2 = keyOf keys r)) = true := by
        rw [List.any_eq_true]
        exact ⟨c, hc, by simp [hck]⟩
      rw [hN, Bool.or_true]
  have hfilter : rows.filter
      (fun r => !(keyMem keys (cur ++ newRowsFor keys rows cur) r)) = [] := by
    rw [List.filter_eq_nil_iff]
    intro a ha
    rw [hall a ha]
    simp
  rw [show newRowsFor keys rows (cur ++ newRowsFor keys rows cur) =
      dropDupKeys keys (rows.filter
        (fun r => !(keyMem keys (cur ++ newRowsFor keys rows cur) r))) from rfl]
  rw [hfilter]
  simp only [dropDupKeys]

set_option maxRecDepth 8000 in
/-- C1 counterexample: for the table cexVars, the chunk dimension d has 142
values and the remaining dimensions multiply to 19600 datapoints, so
n = 70000 / 19600 = 3 and np.array_split cuts the 142 values into 47
sections, the FIRST of size 4 and the remaining 46 of size 3. The first
chunk is not the last one, yet its request size 4 x 19600 = 78400 exceeds
the 70000 row budget, refuting the claimed per-chunk bound (the plain
slicing in src/main.py keeps the bound; the worker in scb-table-updater.py
does not). -/
theorem chunk_budget_counterexample :
    extract_cardinal_key cexVars = some (("d", List.range 142), cexRest) ∧
    (get_table_chunks cexVars).map (fun cs => cs.map List.length) =
      some (4 :: List.replicate 46 3) ∧
    datapointsOf cexRest = 19600 ∧
    ¬ (4 * 19600 ≤ 70000) := by
  refine ⟨by decide, by decide, by decide, by decide⟩

/-- C1 amended: whenever chunk_card_list returns chunks (it raises when the
fixed dimensions multiply to 0 or when the chunk count comes out 0), their
concatenation is exactly the original value list, so for a duplicate-free
dimension the chunks are pairwise disjoint and their union is the full value
set; the per-chunk budget bound, however, can fail for a non-final chunk
(see the counterexample), because np.array_split balances section sizes
instead of capping them at n. -/
theorem chunk_card_list_partition (query : List (String × List Nat)) (card_list : List Nat)
    (chunks : List (List Nat)) (h : chunk_card_list query card_list = some chunks) :
    chunks.flatten = card_list ∧
    (card_list.Nodup → chunks.Pairwise (fun a b => ∀ x ∈ a, x ∉ b)) := by
  have hex : ∃ k, k ≠ 0 ∧ takeDropSplit card_list (splitCounts card_list.length k) = chunks := by
    unfold chunk_card_list npArraySplit at h
    dsimp only [] at h
    split at h
    · simp at h
    · split at h <;> split at h
      · simp at h
      · exact ⟨_, by assumption, Option.some.inj h⟩
      · simp at h
      · exact ⟨_, by assumption, Option.some.inj h⟩
  obtain ⟨k, hk, hc⟩ := hex
  have hflat : chunks.flatten = card_list := by
    rw [← hc]
    exact takeDropSplit_flatten _ card_list (splitCounts_sum _ _ hk)
  exact ⟨hflat, fun hnd => pairwise_disjoint_of_flatten_nodup (by rw [hflat]; exact hnd)⟩

/-- Witness for the amended C1 theorem: with fixed dimensions multiplying to
exactly 70000 the chunk size is 1 and each value is its own chunk. -/
theorem chunk_card_list_partition_witness :
    ([[1], [2], [3]] : List (List Nat)).flatten = [1, 2, 3] ∧
    ([[1], [2], [3]] : List (List Nat)).Pairwise (fun a b => ∀ x ∈ a, x ∉ b) :=
  ⟨(chunk_card_list_partition wQuery [1, 2, 3] [[1], [2], [3]] (by decide)).1,
   (chunk_card_list_partition wQuery [1, 2, 3] [[1], [2], [3]] (by decide)).2 (by decide)⟩

/-- C10: decoding as the worker does (base64.b64decode then bytes.decode)
inverts the encoding the scheduler publishes (str.encode then
base64.b64encode) for every full_nav_path string, given by its code points
(every Python str code point is below 0x110000), so the worker always runs
the ETL on exactly the path that was published. -/
theorem pubsub_roundtrip (msg : List Nat) (h : ∀ c ∈ msg, c < 1114112) :
    subDecodePath (pubMessageData msg) = some msg := by
  unfold subDecodePath pubMessageData
  rw [b64_roundtrip _ (utf8Encode_bytes_lt msg h)]
  rw [Option.some_bind]
  exact utf8_roundtrip msg

/-- Witness for the C10 theorem on the code points of the string "AB.C". -/
theorem pubsub_roundtrip_witness :
    subDecodePath (pubMessageData [65, 66, 46, 67]) = some [65, 66, 46, 67] :=
  pubsub_roundtrip [65, 66, 46, 67] (by decide)

/-- C8 counterexample: in a catalog where the branch B fails both listing
attempts, the crawl does NOT skip only the B subtree and continue: the error
payload is iterated, the resulting TypeError propagates through every stack
frame, and the whole crawl aborts, never reaching the sibling branch C whose
leaf z would otherwise be emitted (second conjunct: without B the crawl
returns exactly that leaf). -/
theorem crawl_abort_counterexample :
    find_nodes "S" (.l "S" 0 [.l "B" 2 [], .l "C" 0 [.t "z" "Z"]]) = .error () ∧
    find_nodes "S" (.l "S" 0 [.l "C" 0 [.t "z" "Z"]]) = .ok [("S.C.z", "Z")] :=
  ⟨rfl, rfl⟩

/-- C8 amended: the crawler retries a failed listing once (a branch whose
first listing fails but whose retry succeeds is crawled exactly like one
that never failed), but when any reachable branch fails BOTH attempts the
error propagates and the entire crawl aborts; siblings after the failing
branch are never visited. -/
theorem crawl_error_propagation (path id bid : String) (pre post bcs cs : List CNode)
    (f : Nat) (hf : 2 ≤ f) :
    find_nodes path (.l id 1 (pre ++ .l bid f bcs :: post)) = .error () ∧
    find_nodes path (.l id 1 cs) = find_nodes path (.l id 0 cs) := by
  constructor
  · rw [find_nodes, if_neg (by omega), crawlChildren_double_failure path bid bcs f hf]
  · rw [find_nodes, if_neg (by omega), find_nodes, if_neg (by omega)]

/-- Witness for the amended C8 theorem on a concrete two-branch catalog. -/
theorem crawl_error_propagation_witness :
    find_nodes "S" (.l "S" 1 [.l "B" 2 [], .l "C" 0 [.t "z" "Z"]]) = .error () ∧
    find_nodes "S" (.l "S" 1 [.t "x" "X"]) = find_nodes "S" (.l "S" 0 [.t "x" "X"]) :=
  crawl_error_propagation "S" "S" "B" [] [CNode.l "C" 0 [CNode.t "z" "Z"]] [] [.t "x" "X"]
    2 (by decide)

/-- Witness for the C9 theorem at one concrete discovery. -/
theorem new_leaf_selectable_witness :
    (⟨"p", "q", some sentinel1900, some 0⟩ : Ref).last_update = some sentinel1900 ∧
    (⟨"p", "q", some sentinel1900, some 0⟩ : Ref).next_update = some 0 ∧
    selPred 5 ⟨"p", "q", some sentinel1900, some 0⟩ = true :=
  new_leaf_selectable 0 5 [] [("p", "q")] _ (by decide) (by decide) (by decide)

end Scb
